import Mathlib

/-!
Shallow embedding of `src/cinema.py`: a `Seat`/`CinemaHall` reservation system.

Modelling conventions:
* Python `int` arguments become `Int`.  Arguments whose dynamic type the code
  inspects with `isinstance(_, int)` become `PyNum` (`int` or a non-integer value);
  a non-integer value is immediately rejected by the constructors, so its payload
  is irrelevant and is not modelled.
* Python numeric prices (ints and floats) become `ℚ`; the float literals `0.8`
  and `0.7` become the exact rationals `(0.8 : ℚ)` and `(0.7 : ℚ)`.  No claim in
  this development depends on binary floating-point rounding.
* A method that mutates the hall becomes a function `CinemaHall → args →
  Except String String × CinemaHall`: the first component is the returned
  message or the raised `ValueError`'s message, the second the hall state after
  the call.  `show_seats`, which only reads, is threaded the same way.
* Python's textual rendering of a bare number in an f-string is abstracted by
  `priceRepr`; no claim depends on its exact digits.  The `{price:.2f}`
  formatting of the reservation message is modelled exactly by `format2dp`.
-/

/-- A Python numeric argument as seen by an `isinstance(_, int)` check:
either an integer or some non-integer value (whose payload the code never uses,
since it raises immediately). -/
inductive PyNum where
  | int : Int → PyNum
  | nonInt : PyNum
deriving DecidableEq

/-- `isinstance(x, int) and x > 0`, i.e. the negation of the guard
`not isinstance(x, int) or x <= 0` used by both constructors. -/
def PyNum.posInt : PyNum → Bool
  | .int n => 0 < n
  | .nonInt => false

/-- One seat: `Seat.__init__` fields `number`, `row`, `reserved`, `price`
(`src/cinema.py` lines 12–21). -/
structure Seat where
  number : Int
  row : Int
  reserved : Bool
  price : ℚ
deriving DecidableEq, Repr

/-- `Seat(number, row)`: validation and initial field values of
`Seat.__init__`. -/
def Seat.init (number row : PyNum) : Except String Seat :=
  if !number.posInt then .error "The seat number must be a positive integer."
  else if !row.posInt then .error "The seat row must be a positive integer."
  else
    match number, row with
    | .int n, .int r => .ok ⟨n, r, false, 0⟩
    | _, _ => .error "unreachable"

/-- The hall: an ordered list of seats (`self.__seats`). -/
structure CinemaHall where
  seats : List Seat
deriving DecidableEq, Repr

/-- The seat list built by `CinemaHall.__init__`'s two nested loops
`for row in range(1, rows + 1): for number in range(1, seats_per_row + 1)`. -/
def mkSeats (rows seats_per_row : Nat) : List Seat :=
  (List.range rows).flatMap fun (row : Nat) =>
    (List.range seats_per_row).map fun (number : Nat) =>
      ⟨(number : Int) + 1, (row : Int) + 1, false, 0⟩

/-- `CinemaHall(rows, seats_per_row)`: validation (seats-per-row checked first,
as in the source) and seat-list construction. -/
def CinemaHall.init (rows seats_per_row : PyNum) : Except String CinemaHall :=
  if !seats_per_row.posInt then
    .error "The number of seats in each row must be a positive integer."
  else if !rows.posInt then
    .error "The total number of rows must be a positive integer."
  else
    match rows, seats_per_row with
    | .int r, .int spr => .ok ⟨mkSeats r.toNat spr.toNat⟩
    | _, _ => .error "unreachable"

/-- The comparison `a.get_number() == number and a.get_row() == row` used by
`search_seat` and by `add_seat`'s duplicate scan. -/
def matchesSeat (number row : Int) (s : Seat) : Bool :=
  s.number == number && s.row == row

/-- `CinemaHall.search_seat`: linear scan, first match or `None`. -/
def CinemaHall.search_seat (hall : CinemaHall) (number row : Int) : Option Seat :=
  hall.seats.find? (matchesSeat number row)

/-- In-place mutation of the first seat satisfying `p` (the seat object
returned by `search_seat` is mutated; the list itself is untouched). -/
def updateFirst (p : Seat → Bool) (f : Seat → Seat) : List Seat → List Seat
  | [] => []
  | s :: rest => if p s then f s :: rest else s :: updateFirst p f rest

/-- Python's `f"{price:.2f}"` on an exact rational: sign, integer part, dot,
two fractional digits (rounding to the nearest hundredth). -/
def format2dp (q : ℚ) : String :=
  let cents : Int := round (q * 100)
  let sign := if cents < 0 then "-" else ""
  let a := cents.natAbs
  let fracStr := if a % 100 < 10 then "0" ++ toString (a % 100) else toString (a % 100)
  sign ++ toString (a / 100) ++ "." ++ fracStr

/-- `CinemaHall.reserve_seat(number, row, age, day_of_week, base_price)`
(`src/cinema.py` lines 62–80).  `day_of_week` and `base_price` are taken as
explicit arguments here; the source's definition-time default for
`day_of_week` is modelled separately by `reserve_seat_defaulted`. -/
def CinemaHall.reserve_seat (hall : CinemaHall) (number row age day_of_week : Int)
    (base_price : ℚ) : Except String String × CinemaHall :=
  match hall.search_seat number row with
  | some seat =>
    if seat.reserved then
      (.error "The seat is already reserved.", hall)
    else
      let price := base_price
      let price := if day_of_week = 2 then price * (0.8 : ℚ) else price
      let price := if age > 65 then price * (0.7 : ℚ) else price
      (.ok s!"Seat {number} in row {row} has been reserved. Price: {format2dp price}€",
       ⟨updateFirst (matchesSeat number row)
          (fun s => { s with reserved := true, price := price }) hall.seats⟩)
  | none => (.error "The seat does not exist.", hall)

/-- `CinemaHall.cancel_reservation(number, row)` (`src/cinema.py` lines 83–93). -/
def CinemaHall.cancel_reservation (hall : CinemaHall) (number row : Int) :
    Except String String × CinemaHall :=
  match hall.search_seat number row with
  | some seat =>
    if seat.reserved then
      (.ok s!"Reservation for seat {number} in row {row} has been canceled.",
       ⟨updateFirst (matchesSeat number row)
          (fun s => { s with reserved := false, price := 0 }) hall.seats⟩)
    else
      (.error "The seat is not reserved.", hall)
  | none => (.error "The seat does not exist.", hall)

/-- The insertion loop of `add_seat`: scan for the first position whose seat is
strictly greater in `(row, number)` order and insert there
(`src/cinema.py` lines 116–124). -/
def insertSorted (seat : Seat) : List Seat → List Seat
  | [] => [seat]
  | a :: rest =>
    if seat.row < a.row ∨ (seat.row = a.row ∧ seat.number < a.number) then
      seat :: a :: rest
    else
      a :: insertSorted seat rest

/-- `CinemaHall.add_seat(seat)` (`src/cinema.py` lines 96–125): duplicate
check, then (on a non-empty hall) row-range and next-number checks against the
globally last seat, then sorted insertion. -/
def CinemaHall.add_seat (hall : CinemaHall) (seat : Seat) :
    Except String String × CinemaHall :=
  if hall.seats.any (fun a => a.number == seat.number && a.row == seat.row) then
    (.error "The seat is already registered in the hall.", hall)
  else
    match hall.seats.head?, hall.seats.getLast? with
    | some firstS, some lastS =>
      if seat.row > lastS.row then
        (.error (s!"The row number is greater than the total number of rows in the hall. Creating new rows is not allowed." ++
          s!"Seats can be added in rows from {firstS.row} to {lastS.row}."), hall)
      else if seat.number ≠ lastS.number + 1 then
        (.error (s!"The seat number is not the next in the row. It is only allowed to add seats in order. " ++
          s!"The number of the next available seat is: {lastS.number + 1}."), hall)
      else
        (.ok s!"Seat {seat.number} in row {seat.row} has been added.",
         ⟨insertSorted seat hall.seats⟩)
    | _, _ =>
      (.ok s!"Seat {seat.number} in row {seat.row} has been added.",
       ⟨insertSorted seat hall.seats⟩)

/-- Rendering of a bare Python number in an f-string; the exact digits are
irrelevant to every claim, so the rational's standard rendering is used. -/
def priceRepr (q : ℚ) : String :=
  toString q

/-- `CinemaHall.show_seats(day_of_week, base_price)` (`src/cinema.py` lines
127–139): one line per seat, joined with newlines.  The hall is threaded
through unchanged, mirroring that the method performs no writes. -/
def CinemaHall.show_seats (hall : CinemaHall) (day_of_week : Int) (base_price : ℚ) :
    String × CinemaHall :=
  let bp := if day_of_week = 2 then base_price * (0.8 : ℚ) else base_price
  let all_seats := hall.seats.map fun seat =>
    let status := if seat.reserved then "Reserved" else "Available"
    let price := if seat.reserved then seat.price else bp
    s!"Seat {seat.number}, row {seat.row}: {status}, Price: {priceRepr price}€"
  (String.intercalate "\n" all_seats, hall)

/-- `CinemaHall.get_rows`: number of distinct row values. -/
def CinemaHall.get_rows (hall : CinemaHall) : Nat :=
  ((hall.seats.map Seat.row).dedup).length

/-- `CinemaHall.get_seats_per_row`: number of distinct seat numbers. -/
def CinemaHall.get_seats_per_row (hall : CinemaHall) : Nat :=
  ((hall.seats.map Seat.number).dedup).length

/-- The source defines `reserve_seat`'s `day_of_week` default as
`datetime.today().weekday()`, evaluated once when the module is loaded.  The
clock is modelled by passing that startup value explicitly: calling
`reserve_seat` without a `day_of_week` argument behaves like this function. -/
def CinemaHall.reserve_seat_defaulted (startup_weekday : Int) (hall : CinemaHall)
    (number row age : Int) : Except String String × CinemaHall :=
  hall.reserve_seat number row age startup_weekday 10

/-- Likewise for `show_seats`'s defaulted `day_of_week`. -/
def CinemaHall.show_seats_defaulted (startup_weekday : Int) (hall : CinemaHall) :
    String × CinemaHall :=
  hall.show_seats startup_weekday 10

/-! ### Ordering of seats by `(row, number)` -/

/-- The `(row, number)` key of a seat: the sort key of the hall's list. -/
def seatKey (s : Seat) : Int × Int := (s.row, s.number)

/-- Strict lexicographic order on `(row, number)` keys. -/
def keyLt (p q : Int × Int) : Prop := p.1 < q.1 ∨ (p.1 = q.1 ∧ p.2 < q.2)

/-- Strict `(row, number)` order on seats; this is literally the comparison in
`add_seat`'s insertion loop. -/
def seatLt (s t : Seat) : Prop := keyLt (seatKey s) (seatKey t)

instance (p q : Int × Int) : Decidable (keyLt p q) := by
  unfold keyLt; infer_instance

instance (s t : Seat) : Decidable (seatLt s t) := by
  unfold seatLt; infer_instance

theorem keyLt_trans {p q r : Int × Int} (h1 : keyLt p q) (h2 : keyLt q r) : keyLt p r := by
  rcases h1 with h1 | ⟨e1, h1⟩ <;> rcases h2 with h2 | ⟨e2, h2⟩
  · exact Or.inl (h1.trans h2)
  · exact Or.inl (e2 ▸ h1)
  · exact Or.inl (e1 ▸ h2)
  · exact Or.inr ⟨e1.trans e2, h1.trans h2⟩

theorem keyLt_of_ne {p q : Int × Int} (hne : p ≠ q) (hnot : ¬ keyLt p q) : keyLt q p := by
  unfold keyLt at *
  push_neg at hnot
  rcases lt_trichotomy p.1 q.1 with h | h | h
  · exact absurd h (not_lt.mpr hnot.1)
  · rcases lt_trichotomy p.2 q.2 with h2 | h2 | h2
    · exact absurd h2 (not_lt.mpr (hnot.2 h))
    · exact absurd (Prod.ext h h2) hne
    · exact Or.inr ⟨h.symm, h2⟩
  · exact Or.inl h

theorem seatLt_trans {s t u : Seat} (h1 : seatLt s t) (h2 : seatLt t u) : seatLt s u :=
  keyLt_trans h1 h2

/-- `matchesSeat number row s` holds exactly when `s`'s key is `(row, number)`. -/
theorem matchesSeat_iff_key {number row : Int} {s : Seat} :
    matchesSeat number row s = true ↔ seatKey s = (row, number) := by
  simp [matchesSeat, seatKey, Prod.ext_iff, and_comm]

/-! ### `updateFirst` (in-place mutation of the seat found by `search_seat`) -/

theorem updateFirst_split {p : Seat → Bool} {f : Seat → Seat} {l : List Seat} {s : Seat}
    (h : l.find? p = some s) :
    ∃ l1 l2, l = l1 ++ s :: l2 ∧ (∀ x ∈ l1, p x = false) ∧
      updateFirst p f l = l1 ++ f s :: l2 := by
  induction l with
  | nil => simp [List.find?] at h
  | cons a rest ih =>
    by_cases ha : p a
    · have has : a = s := by simpa [List.find?, ha] using h
      subst has
      exact ⟨[], rest, rfl, by simp, by simp [updateFirst, ha]⟩
    · have h' : rest.find? p = some s := by
        simpa [List.find?, ha] using h
      obtain ⟨l1, l2, he, hl1, hu⟩ := ih h'
      exact ⟨a :: l1, l2, by simp [he], by simpa [ha] using hl1,
        by simp [updateFirst, ha, hu]⟩

theorem updateFirst_map_key (p : Seat → Bool) (f : Seat → Seat)
    (hf : ∀ s, seatKey (f s) = seatKey s) (l : List Seat) :
    (updateFirst p f l).map seatKey = l.map seatKey := by
  induction l with
  | nil => rfl
  | cons a rest ih =>
    by_cases ha : p a <;> simp [updateFirst, ha, hf, ih]

theorem find?_append_all_false {p : Seat → Bool} {l1 l2 : List Seat}
    (hl1 : ∀ x ∈ l1, p x = false) : (l1 ++ l2).find? p = l2.find? p := by
  induction l1 with
  | nil => rfl
  | cons a t ih =>
    have ha : p a = false := hl1 a (by simp)
    simp only [List.cons_append, List.find?, ha]
    exact ih fun x hx => hl1 x (by simp [hx])

theorem find?_updateFirst {p : Seat → Bool} {f : Seat → Seat} {l : List Seat} {s : Seat}
    (h : l.find? p = some s) (hf : p (f s) = true) :
    (updateFirst p f l).find? p = some (f s) := by
  obtain ⟨l1, l2, _, hl1, hu⟩ := updateFirst_split (f := f) h
  rw [hu, find?_append_all_false hl1]
  simp [List.find?, hf]

/-- Pairwise `(row, number)` order is a property of the keys alone. -/
theorem pairwise_seatLt_iff_keys {l : List Seat} :
    l.Pairwise seatLt ↔ (l.map seatKey).Pairwise keyLt := by
  rw [List.pairwise_map]; rfl

/-! ### `insertSorted` (the insertion loop of `add_seat`) -/

theorem insertSorted_perm (s : Seat) (l : List Seat) :
    (insertSorted s l).Perm (s :: l) := by
  induction l with
  | nil => simp [insertSorted]
  | cons a rest ih =>
    rw [insertSorted]
    split
    · exact List.Perm.refl _
    · exact (List.Perm.cons a ih).trans (List.Perm.swap s a rest)

theorem insertSorted_pairwise {s : Seat} {l : List Seat}
    (hl : l.Pairwise seatLt) (hne : ∀ a ∈ l, seatKey a ≠ seatKey s) :
    (insertSorted s l).Pairwise seatLt := by
  induction l with
  | nil => simp [insertSorted]
  | cons a rest ih =>
    rcases List.pairwise_cons.mp hl with ⟨haRest, hRest⟩
    by_cases h : seatLt s a
    · have : (s.row < a.row ∨ (s.row = a.row ∧ s.number < a.number)) := h
      rw [insertSorted, if_pos this]
      refine List.pairwise_cons.mpr ⟨?_, hl⟩
      intro b hb
      rcases List.mem_cons.mp hb with rfl | hb
      · exact h
      · exact seatLt_trans h (haRest b hb)
    · have hnot : ¬ (s.row < a.row ∨ (s.row = a.row ∧ s.number < a.number)) := h
      rw [insertSorted, if_neg hnot]
      refine List.pairwise_cons.mpr ⟨?_, ih hRest (fun x hx => hne x (by simp [hx]))⟩
      intro b hb
      have hb' := (insertSorted_perm s rest).mem_iff.mp hb
      rcases List.mem_cons.mp hb' with rfl | hb'
      · exact keyLt_of_ne (Ne.symm (hne a (by simp))) h
      · exact haRest b hb'

/-! ### The seat grid built by `CinemaHall.__init__` -/

theorem mkSeats_length (rows spr : Nat) : (mkSeats rows spr).length = rows * spr := by
  simp [mkSeats, List.length_flatMap, Function.comp_def, List.map_const', List.sum_replicate,
    smul_eq_mul, Nat.mul_comm]

theorem mkSeats_mem {rows spr : Nat} {s : Seat} (h : s ∈ mkSeats rows spr) :
    s.reserved = false ∧ s.price = 0 := by
  simp only [mkSeats, List.mem_flatMap, List.mem_map] at h
  obtain ⟨r, -, n, -, rfl⟩ := h
  exact ⟨rfl, rfl⟩

theorem mkSeats_pairwise (rows spr : Nat) : (mkSeats rows spr).Pairwise seatLt := by
  rw [mkSeats, List.pairwise_flatMap]
  constructor
  · intro r _
    rw [List.pairwise_map]
    refine List.Pairwise.imp ?_ (List.pairwise_lt_range spr)
    intro a b hab
    refine Or.inr ⟨rfl, ?_⟩
    simp only [seatKey]
    omega
  · refine List.Pairwise.imp ?_ (List.pairwise_lt_range rows)
    intro r1 r2 h x hx y hy
    simp only [List.mem_map] at hx hy
    obtain ⟨n1, -, rfl⟩ := hx
    obtain ⟨n2, -, rfl⟩ := hy
    refine Or.inl ?_
    simp only [seatKey]
    omega

theorem hall_init_ok {rows spr : Int} (h1 : 0 < rows) (h2 : 0 < spr) :
    CinemaHall.init (.int rows) (.int spr) = .ok ⟨mkSeats rows.toNat spr.toNat⟩ := by
  simp [CinemaHall.init, PyNum.posInt, h1, h2]

/-! ### Concrete halls used as witnesses -/

/-- The empty hall (reachable only as a degenerate value, used for evaluation). -/
def hallEmpty : CinemaHall := ⟨[]⟩

/-- A one-seat hall whose seat is free. -/
def hallOneFree : CinemaHall := ⟨[⟨1, 1, false, 0⟩]⟩

/-- A one-seat hall whose seat is reserved at price 8. -/
def hallOneReserved : CinemaHall := ⟨[⟨1, 1, true, 8⟩]⟩

/-- The hall of the spec's `Hall(rows=5, seatsPerRow=5)` example. -/
def hall55 : CinemaHall := ⟨mkSeats 5 5⟩

/-- The seat of the spec's `addSeat(Seat(6,3))` example. -/
def seat63 : Seat := ⟨6, 3, false, 0⟩

/-! ### Claim theorems -/

/-- Claim C2: a Hall constructed with integer `rows > 0`, `seatsPerRow > 0` has
exactly `rows * seatsPerRow` seats, all unreserved with price 0, ordered by
`(row, number)` ascending; construction with a non-positive or non-integer
argument fails with a `ValueError` (the spec's InvalidArgument). -/
theorem claim_C2_hall_construction :
    (∀ rows spr : Int, 0 < rows → 0 < spr →
      ∃ hall : CinemaHall,
        CinemaHall.init (.int rows) (.int spr) = .ok hall ∧
        (hall.seats.length : Int) = rows * spr ∧
        (∀ s ∈ hall.seats, s.reserved = false ∧ s.price = 0) ∧
        hall.seats.Pairwise seatLt) ∧
    (∀ rows spr : Int, rows ≤ 0 ∨ spr ≤ 0 →
      ∃ e, CinemaHall.init (.int rows) (.int spr) = .error e) ∧
    (∀ x : PyNum,
      (∃ e, CinemaHall.init PyNum.nonInt x = .error e) ∧
      (∃ e, CinemaHall.init x PyNum.nonInt = .error e)) := by
  refine ⟨?_, ?_, ?_⟩
  · intro rows spr h1 h2
    refine ⟨⟨mkSeats rows.toNat spr.toNat⟩, hall_init_ok h1 h2, ?_, fun s hs => mkSeats_mem hs,
      mkSeats_pairwise _ _⟩
    rw [mkSeats_length]
    push_cast
    rw [Int.toNat_of_nonneg h1.le, Int.toNat_of_nonneg h2.le]
  · intro rows spr h
    by_cases hspr : 0 < spr
    · refine ⟨"The total number of rows must be a positive integer.", ?_⟩
      have hrows : ¬ 0 < rows := by omega
      simp [CinemaHall.init, PyNum.posInt, hspr, hrows]
    · exact ⟨"The number of seats in each row must be a positive integer.",
        by simp [CinemaHall.init, PyNum.posInt, hspr]⟩
  · intro x
    constructor
    · rcases x with n | _
      · by_cases hn : 0 < n
        · exact ⟨"The total number of rows must be a positive integer.",
            by simp [CinemaHall.init, PyNum.posInt, hn]⟩
        · exact ⟨"The number of seats in each row must be a positive integer.",
            by simp [CinemaHall.init, PyNum.posInt, hn]⟩
      · exact ⟨"The number of seats in each row must be a positive integer.",
          by simp [CinemaHall.init, PyNum.posInt]⟩
    · exact ⟨"The number of seats in each row must be a positive integer.",
        by simp [CinemaHall.init, PyNum.posInt]⟩

/-- The price the spec prescribes for a successful reservation: the base
price with the Wednesday (×0.8) and over-65 (×0.7) discounts applied
independently and multiplicatively. -/
def specPrice (age day_of_week : Int) (base_price : ℚ) : ℚ :=
  base_price * (if day_of_week = 2 then (0.8 : ℚ) else 1) *
    (if age > 65 then (0.7 : ℚ) else 1)

theorem reserve_code_price_eq_specPrice (age day : Int) (b : ℚ) :
    (if age > 65 then (if day = 2 then b * (0.8 : ℚ) else b) * (0.7 : ℚ)
     else (if day = 2 then b * (0.8 : ℚ) else b)) = specPrice age day b := by
  unfold specPrice
  by_cases hd : day = 2 <;> by_cases ha : age > 65 <;> simp [hd, ha, mul_assoc]

/-- Claim C1: reserving an existing unreserved seat succeeds, the price is the
base price times 0.8 exactly when the day is Wednesday (code 2) and times 0.7
exactly when the age exceeds 65 (independent, multiplicative factors), the seat
is stored reserved with that price, the returned message carries the seat
identification and the price formatted to two decimals, and in particular
`basePrice = 10`, `age = 80`, non-Wednesday stores exactly 7. -/
theorem claim_C1_reserve_pricing (hall : CinemaHall) (number row age day : Int) (b : ℚ)
    (s0 : Seat) (hfind : hall.search_seat number row = some s0)
    (hres : s0.reserved = false) :
    (hall.reserve_seat number row age day b).1 =
      .ok s!"Seat {number} in row {row} has been reserved. Price: {format2dp (specPrice age day b)}€" ∧
    (hall.reserve_seat number row age day b).2.search_seat number row =
      some { s0 with reserved := true, price := specPrice age day b } ∧
    (b = 10 → age > 65 → day ≠ 2 → specPrice age day b = 7) := by
  have hmatch : matchesSeat number row s0 = true := List.find?_some hfind
  have hmatch' : matchesSeat number row
      { s0 with reserved := true, price := specPrice age day b } = true := by
    simpa [matchesSeat] using hmatch
  refine ⟨?_, ?_, ?_⟩
  · simp only [CinemaHall.reserve_seat, hfind, hres, Bool.false_eq_true, if_false,
      reserve_code_price_eq_specPrice]
  · have : (hall.reserve_seat number row age day b).2.seats =
        updateFirst (matchesSeat number row)
          (fun s => { s with reserved := true, price := specPrice age day b }) hall.seats := by
      simp only [CinemaHall.reserve_seat, hfind, hres, Bool.false_eq_true, if_false,
        reserve_code_price_eq_specPrice]
    rw [CinemaHall.search_seat, this]
    exact find?_updateFirst hfind hmatch'
  · intro hb ha hd
    simp only [specPrice, hb, hd, if_false, ha, if_pos, if_true]
    norm_num

/-- Witness for C1: a one-seat hall, `age = 80`, Monday, `basePrice = 10`;
the seat is stored reserved and its stored price is exactly 7. -/
theorem claim_C1_reserve_pricing_witness :
    hallOneFree.search_seat 1 1 = some ⟨1, 1, false, 0⟩ ∧
    (⟨1, 1, false, 0⟩ : Seat).reserved = false ∧
    (hallOneFree.reserve_seat 1 1 80 0 10).2.search_seat 1 1 =
      some { (⟨1, 1, false, 0⟩ : Seat) with reserved := true, price := specPrice 80 0 10 } ∧
    specPrice 80 0 10 = 7 :=
  ⟨rfl, rfl,
    (claim_C1_reserve_pricing hallOneFree 1 1 80 0 10 ⟨1, 1, false, 0⟩ rfl rfl).2.1,
    (claim_C1_reserve_pricing hallOneFree 1 1 80 0 10 ⟨1, 1, false, 0⟩ rfl rfl).2.2
      rfl (by decide) (by decide)⟩

/-- Claim C5: `reserve_seat` fails with "The seat does not exist." exactly when
the seat is absent, fails with "The seat is already reserved." exactly when the
seat exists and is reserved, and in the already-reserved case the hall is left
unchanged. -/
theorem claim_C5_reserve_errors (hall : CinemaHall) (number row age day : Int) (b : ℚ) :
    ((hall.reserve_seat number row age day b).1 = .error "The seat does not exist." ↔
      hall.search_seat number row = none) ∧
    ((hall.reserve_seat number row age day b).1 = .error "The seat is already reserved." ↔
      ∃ s, hall.search_seat number row = some s ∧ s.reserved = true) ∧
    (∀ s, hall.search_seat number row = some s → s.reserved = true →
      (hall.reserve_seat number row age day b).2 = hall) := by
  cases hs : hall.search_seat number row with
  | none =>
    have hfst : (hall.reserve_seat number row age day b).1 =
        .error "The seat does not exist." := by
      simp [CinemaHall.reserve_seat, hs]
    refine ⟨by simp [hfst, hs], ?_, by simp⟩
    rw [hfst]
    constructor
    · intro h
      have hmsg : "The seat does not exist." = "The seat is already reserved." := by
        injection h
      exact absurd hmsg (by decide)
    · rintro ⟨s, hsome, -⟩
      simp at hsome
  | some s =>
    cases hr : s.reserved with
    | true =>
      have hfst : (hall.reserve_seat number row age day b).1 =
          .error "The seat is already reserved." := by
        simp [CinemaHall.reserve_seat, hs, hr]
      have hsnd : (hall.reserve_seat number row age day b).2 = hall := by
        simp [CinemaHall.reserve_seat, hs, hr]
      refine ⟨?_, ?_, fun t _ _ => hsnd⟩
      · rw [hfst]
        constructor
        · intro h
          have hmsg : "The seat is already reserved." = "The seat does not exist." := by
            injection h
          exact absurd hmsg (by decide)
        · intro h
          simp at h
      · rw [hfst]
        simp [hr]
    | false =>
      have hfst : (hall.reserve_seat number row age day b).1 =
          .ok s!"Seat {number} in row {row} has been reserved. Price: {format2dp (specPrice age day b)}€" := by
        simp only [CinemaHall.reserve_seat, hs, hr, Bool.false_eq_true, if_false,
          reserve_code_price_eq_specPrice]
      refine ⟨?_, ?_, ?_⟩
      · rw [hfst]
        constructor
        · intro h
          cases h
        · intro h
          simp at h
      · rw [hfst]
        constructor
        · intro h
          cases h
        · rintro ⟨t, hsome, hres⟩
          injection hsome with h'
          subst h'
          simp [hr] at hres
      · intro t hsome hres
        injection hsome with h'
        subst h'
        simp [hr] at hres

theorem claim_C2_hall_construction_witness :
    (0 : Int) < 2 ∧ (0 : Int) < 3 ∧
    (∃ hall : CinemaHall,
      CinemaHall.init (.int 2) (.int 3) = .ok hall ∧
      (hall.seats.length : Int) = 2 * 3 ∧
      (∀ s ∈ hall.seats, s.reserved = false ∧ s.price = 0) ∧
      hall.seats.Pairwise seatLt) :=
  ⟨by decide, by decide, claim_C2_hall_construction.1 2 3 (by decide) (by decide)⟩

/-- Witness for C5: reserving the already-reserved seat of a one-seat hall
leaves the hall unchanged. -/
theorem claim_C5_reserve_errors_witness :
    hallOneReserved.search_seat 1 1 = some ⟨1, 1, true, 8⟩ ∧
    (⟨1, 1, true, 8⟩ : Seat).reserved = true ∧
    (hallOneReserved.reserve_seat 1 1 30 0 10).2 = hallOneReserved :=
  ⟨rfl, rfl, (claim_C5_reserve_errors hallOneReserved 1 1 30 0 10).2.2 ⟨1, 1, true, 8⟩ rfl rfl⟩

/-- Claim C6: `cancel_reservation` fails with "The seat does not exist." when
the seat is absent, fails with "The seat is not reserved." when the seat exists
unreserved (leaving the hall unchanged), and otherwise stores the seat as
unreserved with price 0 and returns the confirmation message. -/
theorem claim_C6_cancel (hall : CinemaHall) (number row : Int) :
    (hall.search_seat number row = none →
      hall.cancel_reservation number row = (.error "The seat does not exist.", hall)) ∧
    (∀ s, hall.search_seat number row = some s → s.reserved = false →
      hall.cancel_reservation number row = (.error "The seat is not reserved.", hall)) ∧
    (∀ s, hall.search_seat number row = some s → s.reserved = true →
      (hall.cancel_reservation number row).1 =
        .ok s!"Reservation for seat {number} in row {row} has been canceled." ∧
      (hall.cancel_reservation number row).2.search_seat number row =
        some { s with reserved := false, price := 0 }) := by
  refine ⟨?_, ?_, ?_⟩
  · intro h
    simp [CinemaHall.cancel_reservation, h]
  · intro s hsome hres
    simp [CinemaHall.cancel_reservation, hsome, hres]
  · intro s hsome hres
    have hmatch : matchesSeat number row s = true := List.find?_some hsome
    have hmatch' : matchesSeat number row
        { s with reserved := false, price := 0 } = true := by
      simpa [matchesSeat] using hmatch
    constructor
    · simp [CinemaHall.cancel_reservation, hsome, hres]
    · have hseats : (hall.cancel_reservation number row).2.seats =
          updateFirst (matchesSeat number row)
            (fun t => { t with reserved := false, price := 0 }) hall.seats := by
        simp [CinemaHall.cancel_reservation, hsome, hres]
      rw [CinemaHall.search_seat, hseats]
      exact find?_updateFirst hsome hmatch'

/-- Witness for C6: cancelling the reserved seat of a one-seat hall stores it
unreserved with price 0. -/
theorem claim_C6_cancel_witness :
    hallOneReserved.search_seat 1 1 = some ⟨1, 1, true, 8⟩ ∧
    (⟨1, 1, true, 8⟩ : Seat).reserved = true ∧
    (hallOneReserved.cancel_reservation 1 1).2.search_seat 1 1 =
      some { (⟨1, 1, true, 8⟩ : Seat) with reserved := false, price := 0 } :=
  ⟨rfl, rfl, ((claim_C6_cancel hallOneReserved 1 1).2.2 ⟨1, 1, true, 8⟩ rfl rfl).2⟩

/-- Claim C7: every mutating operation that fails (returns a `ValueError`)
leaves the hall — its whole seat list, hence every seat's number, row,
reserved flag and price — exactly as it was. -/
theorem claim_C7_atomicity :
    (∀ (hall : CinemaHall) (number row age day : Int) (b : ℚ) (e : String),
      (hall.reserve_seat number row age day b).1 = .error e →
      (hall.reserve_seat number row age day b).2 = hall) ∧
    (∀ (hall : CinemaHall) (number row : Int) (e : String),
      (hall.cancel_reservation number row).1 = .error e →
      (hall.cancel_reservation number row).2 = hall) ∧
    (∀ (hall : CinemaHall) (seat : Seat) (e : String),
      (hall.add_seat seat).1 = .error e →
      (hall.add_seat seat).2 = hall) := by
  refine ⟨?_, ?_, ?_⟩
  · intro hall number row age day b e herr
    cases hs : hall.search_seat number row with
    | none => simp [CinemaHall.reserve_seat, hs]
    | some s =>
      cases hr : s.reserved with
      | true => simp [CinemaHall.reserve_seat, hs, hr]
      | false =>
        simp only [CinemaHall.reserve_seat, hs, hr, Bool.false_eq_true, if_false] at herr
        cases herr
  · intro hall number row e herr
    cases hs : hall.search_seat number row with
    | none => simp [CinemaHall.cancel_reservation, hs]
    | some s =>
      cases hr : s.reserved with
      | false => simp [CinemaHall.cancel_reservation, hs, hr]
      | true =>
        simp only [CinemaHall.cancel_reservation, hs, hr, if_true] at herr
        cases herr
  · intro hall seat e herr
    by_cases hdup : (hall.seats.any fun a => a.number == seat.number && a.row == seat.row) = true
    · simp [CinemaHall.add_seat, hdup]
    · cases hh : hall.seats.head? with
      | none =>
        cases hl : hall.seats.getLast? with
        | none => simp [CinemaHall.add_seat, hdup, hh, hl] at herr
        | some lastS => simp [CinemaHall.add_seat, hdup, hh, hl] at herr
      | some firstS =>
        cases hl : hall.seats.getLast? with
        | none => simp [CinemaHall.add_seat, hdup, hh, hl] at herr
        | some lastS =>
          by_cases hrow : seat.row > lastS.row
          · simp [CinemaHall.add_seat, hdup, hh, hl, hrow]
          · by_cases hnum : seat.number = lastS.number + 1
            · rw [CinemaHall.add_seat, if_neg hdup] at herr
              simp only [hh, hl] at herr
              rw [if_neg hrow, if_neg (not_not_intro hnum)] at herr
              exact absurd herr (by simp)
            · simp [CinemaHall.add_seat, hdup, hh, hl, hrow, hnum]

/-- Witness for C7: a failing reserve, cancel and add each leave their hall
unchanged. -/
theorem claim_C7_atomicity_witness :
    (hallEmpty.reserve_seat 1 1 30 0 10).1 = .error "The seat does not exist." ∧
    (hallEmpty.reserve_seat 1 1 30 0 10).2 = hallEmpty ∧
    (hallOneReserved.cancel_reservation 2 1).1 = .error "The seat does not exist." ∧
    (hallOneReserved.cancel_reservation 2 1).2 = hallOneReserved ∧
    (hallOneReserved.add_seat ⟨1, 1, false, 0⟩).1 =
      .error "The seat is already registered in the hall." ∧
    (hallOneReserved.add_seat ⟨1, 1, false, 0⟩).2 = hallOneReserved :=
  ⟨rfl, claim_C7_atomicity.1 hallEmpty 1 1 30 0 10 _ rfl,
   rfl, claim_C7_atomicity.2.1 hallOneReserved 2 1 _ rfl,
   rfl, claim_C7_atomicity.2.2 hallOneReserved ⟨1, 1, false, 0⟩ _ rfl⟩

/-- The duplicate condition of `add_seat`, in the spec's terms: some existing
seat has the same `(number, row)`. -/
def hasSeatDup (hall : CinemaHall) (seat : Seat) : Prop :=
  ∃ a ∈ hall.seats, a.number = seat.number ∧ a.row = seat.row

instance (hall : CinemaHall) (seat : Seat) : Decidable (hasSeatDup hall seat) := by
  unfold hasSeatDup; infer_instance

theorem any_dup_iff (hall : CinemaHall) (seat : Seat) :
    (hall.seats.any fun a => a.number == seat.number && a.row == seat.row) = true ↔
      hasSeatDup hall seat := by
  simp [hasSeatDup, List.any_eq_true]

/-- Claim C3: on a non-empty hall, `add_seat` fails with the duplicate-seat
error when some existing seat has the same `(number, row)`; otherwise fails
with the row-range error when the new seat's row exceeds the globally last
seat's row; otherwise fails with the non-sequential error when the new seat's
number is not the globally last seat's number plus one; and otherwise succeeds,
inserting the seat at its `(row, number)` sort position.  In particular
`Hall(5,5).addSeat(Seat(6,3))` succeeds and yields 26 seats. -/
theorem claim_C3_add_seat (hall : CinemaHall) (seat firstS lastS : Seat)
    (hfirst : hall.seats.head? = some firstS)
    (hlast : hall.seats.getLast? = some lastS) :
    (hasSeatDup hall seat →
      hall.add_seat seat = (.error "The seat is already registered in the hall.", hall)) ∧
    (¬ hasSeatDup hall seat → seat.row > lastS.row →
      hall.add_seat seat =
        (.error (s!"The row number is greater than the total number of rows in the hall. Creating new rows is not allowed." ++
          s!"Seats can be added in rows from {firstS.row} to {lastS.row}."), hall)) ∧
    (¬ hasSeatDup hall seat → ¬ seat.row > lastS.row → seat.number ≠ lastS.number + 1 →
      hall.add_seat seat =
        (.error (s!"The seat number is not the next in the row. It is only allowed to add seats in order. " ++
          s!"The number of the next available seat is: {lastS.number + 1}."), hall)) ∧
    (¬ hasSeatDup hall seat → ¬ seat.row > lastS.row → seat.number = lastS.number + 1 →
      hall.add_seat seat =
        (.ok s!"Seat {seat.number} in row {seat.row} has been added.",
          ⟨insertSorted seat hall.seats⟩) ∧
      (hall.add_seat seat).2.seats.Perm (seat :: hall.seats)) ∧
    (hall55.add_seat seat63 =
        (.ok s!"Seat {seat63.number} in row {seat63.row} has been added.",
          ⟨insertSorted seat63 hall55.seats⟩) ∧
      (hall55.add_seat seat63).2.seats.length = 26) := by
  have hstep : ∀ (hnd : ¬ hasSeatDup hall seat),
      hall.add_seat seat =
        (if seat.row > lastS.row then
          (.error (s!"The row number is greater than the total number of rows in the hall. Creating new rows is not allowed." ++
            s!"Seats can be added in rows from {firstS.row} to {lastS.row}."), hall)
        else if seat.number ≠ lastS.number + 1 then
          (.error (s!"The seat number is not the next in the row. It is only allowed to add seats in order. " ++
            s!"The number of the next available seat is: {lastS.number + 1}."), hall)
        else
          (.ok s!"Seat {seat.number} in row {seat.row} has been added.",
            ⟨insertSorted seat hall.seats⟩)) := by
    intro hnd
    have hany : ¬ (hall.seats.any fun a => a.number == seat.number && a.row == seat.row) = true :=
      fun h => hnd ((any_dup_iff hall seat).mp h)
    rw [CinemaHall.add_seat, if_neg hany]
    simp only [hfirst, hlast]
  refine ⟨?_, ?_, ?_, ?_, ?_⟩
  · intro hdup
    have hany := (any_dup_iff hall seat).mpr hdup
    simp [CinemaHall.add_seat, hany]
  · intro hnd hrow
    rw [hstep hnd, if_pos hrow]
  · intro hnd hrow hnum
    rw [hstep hnd, if_neg hrow, if_pos hnum]
  · intro hnd hrow hnum
    have heq : hall.add_seat seat =
        (.ok s!"Seat {seat.number} in row {seat.row} has been added.",
          ⟨insertSorted seat hall.seats⟩) := by
      rw [hstep hnd, if_neg hrow, if_neg (not_not_intro hnum)]
    refine ⟨heq, ?_⟩
    rw [heq]
    exact insertSorted_perm seat hall.seats
  · exact ⟨rfl, by decide⟩

/-- Witness for C3: the spec's own example, `Hall(5,5)` and `Seat(6,3)`. -/
theorem claim_C3_add_seat_witness :
    hall55.seats.head? = some ⟨1, 1, false, 0⟩ ∧
    hall55.seats.getLast? = some ⟨5, 5, false, 0⟩ ∧
    ¬ hasSeatDup hall55 seat63 ∧
    ¬ seat63.row > (⟨5, 5, false, 0⟩ : Seat).row ∧
    seat63.number = (⟨5, 5, false, 0⟩ : Seat).number + 1 ∧
    (hall55.add_seat seat63 =
        (.ok s!"Seat {seat63.number} in row {seat63.row} has been added.",
          ⟨insertSorted seat63 hall55.seats⟩) ∧
      (hall55.add_seat seat63).2.seats.Perm (seat63 :: hall55.seats)) :=
  ⟨rfl, rfl, by decide, by decide, by decide,
    (claim_C3_add_seat hall55 seat63 ⟨1, 1, false, 0⟩ ⟨5, 5, false, 0⟩ rfl rfl).2.2.2.1
      (by decide) (by decide) (by decide)⟩

/-! ### Reachable hall states and the sortedness/uniqueness invariant -/

/-- Hall states reachable from a valid construction by any sequence of
reserve, cancel and add-seat operations. -/
inductive Reachable : CinemaHall → Prop where
  | init (rows spr : Int) (hall : CinemaHall) :
      CinemaHall.init (.int rows) (.int spr) = .ok hall → Reachable hall
  | reserve (hall : CinemaHall) (number row age day : Int) (b : ℚ) :
      Reachable hall → Reachable (hall.reserve_seat number row age day b).2
  | cancel (hall : CinemaHall) (number row : Int) :
      Reachable hall → Reachable (hall.cancel_reservation number row).2
  | add (hall : CinemaHall) (seat : Seat) :
      Reachable hall → Reachable (hall.add_seat seat).2

theorem reserve_seats_keys (hall : CinemaHall) (number row age day : Int) (b : ℚ) :
    ((hall.reserve_seat number row age day b).2.seats).map seatKey =
      hall.seats.map seatKey := by
  cases hs : hall.search_seat number row with
  | none => simp [CinemaHall.reserve_seat, hs]
  | some s =>
    cases hr : s.reserved with
    | true => simp [CinemaHall.reserve_seat, hs, hr]
    | false =>
      have hseats : (hall.reserve_seat number row age day b).2.seats =
          updateFirst (matchesSeat number row)
            (fun t => { t with reserved := true, price :=
              (if age > 65 then (if day = 2 then b * (0.8 : ℚ) else b) * (0.7 : ℚ)
               else (if day = 2 then b * (0.8 : ℚ) else b)) }) hall.seats := by
        simp only [CinemaHall.reserve_seat, hs, hr, Bool.false_eq_true, if_false]
      rw [hseats]
      exact updateFirst_map_key (matchesSeat number row)
        (fun t => { t with reserved := true, price :=
          (if age > 65 then (if day = 2 then b * (0.8 : ℚ) else b) * (0.7 : ℚ)
           else (if day = 2 then b * (0.8 : ℚ) else b)) })
        (fun _ => rfl) hall.seats

theorem cancel_seats_keys (hall : CinemaHall) (number row : Int) :
    ((hall.cancel_reservation number row).2.seats).map seatKey =
      hall.seats.map seatKey := by
  cases hs : hall.search_seat number row with
  | none => simp [CinemaHall.cancel_reservation, hs]
  | some s =>
    cases hr : s.reserved with
    | false => simp [CinemaHall.cancel_reservation, hs, hr]
    | true =>
      have hseats : (hall.cancel_reservation number row).2.seats =
          updateFirst (matchesSeat number row)
            (fun t => { t with reserved := false, price := 0 }) hall.seats := by
        simp only [CinemaHall.cancel_reservation, hs, hr, if_true]
      rw [hseats]
      exact updateFirst_map_key (matchesSeat number row)
        (fun t => { t with reserved := false, price := 0 }) (fun _ => rfl) hall.seats

theorem add_seat_seats_cases (hall : CinemaHall) (seat : Seat) :
    (hall.add_seat seat).2 = hall ∨
    (¬ hasSeatDup hall seat ∧
      (hall.add_seat seat).2.seats = insertSorted seat hall.seats) := by
  by_cases hdup : (hall.seats.any fun a => a.number == seat.number && a.row == seat.row) = true
  · left
    simp [CinemaHall.add_seat, hdup]
  · have hnd : ¬ hasSeatDup hall seat := fun h => hdup ((any_dup_iff hall seat).mpr h)
    cases hh : hall.seats.head? with
    | none =>
      cases hl : hall.seats.getLast? with
      | none => exact Or.inr ⟨hnd, by simp [CinemaHall.add_seat, hdup, hh, hl]⟩
      | some lastS => exact Or.inr ⟨hnd, by simp [CinemaHall.add_seat, hdup, hh, hl]⟩
    | some firstS =>
      cases hl : hall.seats.getLast? with
      | none => exact Or.inr ⟨hnd, by simp [CinemaHall.add_seat, hdup, hh, hl]⟩
      | some lastS =>
        by_cases hrow : seat.row > lastS.row
        · left
          simp [CinemaHall.add_seat, hdup, hh, hl, hrow]
        · by_cases hnum : seat.number = lastS.number + 1
          · right
            refine ⟨hnd, ?_⟩
            rw [CinemaHall.add_seat, if_neg hdup]
            simp only [hh, hl]
            rw [if_neg hrow, if_neg (not_not_intro hnum)]
          · left
            simp [CinemaHall.add_seat, hdup, hh, hl, hrow, hnum]

theorem init_ok_seats {rows spr : PyNum} {hall : CinemaHall}
    (h : CinemaHall.init rows spr = .ok hall) :
    ∃ r s : Nat, hall.seats = mkSeats r s := by
  unfold CinemaHall.init at h
  by_cases h1 : spr.posInt = true
  · by_cases h2 : rows.posInt = true
    · rcases rows with r | _
      · rcases spr with s | _
        · refine ⟨r.toNat, s.toNat, ?_⟩
          simp [h1, h2] at h
          rw [← h]
        · cases h1exp : PyNum.posInt PyNum.nonInt <;> simp [PyNum.posInt] at h1
      · cases h2exp : PyNum.posInt PyNum.nonInt <;> simp [PyNum.posInt] at h2
    · rw [Bool.not_eq_true] at h2
      simp [h1, h2] at h
  · rw [Bool.not_eq_true] at h1
    simp [h1] at h

theorem reachable_sorted (hall : CinemaHall) (h : Reachable hall) :
    hall.seats.Pairwise seatLt := by
  induction h with
  | init rows spr hall hinit =>
    obtain ⟨r, s, hseats⟩ := init_ok_seats hinit
    rw [hseats]
    exact mkSeats_pairwise r s
  | reserve hall number row age day b _ ih =>
    rw [pairwise_seatLt_iff_keys, reserve_seats_keys, ← pairwise_seatLt_iff_keys]
    exact ih
  | cancel hall number row _ ih =>
    rw [pairwise_seatLt_iff_keys, cancel_seats_keys, ← pairwise_seatLt_iff_keys]
    exact ih
  | add hall seat _ ih =>
    rcases add_seat_seats_cases hall seat with heq | ⟨hnd, heq⟩
    · rw [heq]
      exact ih
    · rw [heq]
      refine insertSorted_pairwise ih ?_
      intro a ha hkey
      refine hnd ⟨a, ha, ?_, ?_⟩
      · exact congrArg Prod.snd hkey
      · exact congrArg Prod.fst hkey

/-- Claim C4: every hall state reachable from a valid construction by
reserve/cancel/add operations has its seat list sorted by `(row, number)`
ascending, and no two seats share the same `(number, row)` pair. -/
theorem claim_C4_invariant (hall : CinemaHall) (h : Reachable hall) :
    hall.seats.Pairwise seatLt ∧
    hall.seats.Pairwise (fun a b => ¬ (a.number = b.number ∧ a.row = b.row)) := by
  have hs := reachable_sorted hall h
  refine ⟨hs, List.Pairwise.imp ?_ hs⟩
  intro a b hab hcontra
  rcases hcontra with ⟨hn, hr⟩
  rcases hab with hlt | ⟨-, hlt⟩
  · rw [seatKey, seatKey] at hlt
    simp only at hlt
    omega
  · rw [seatKey, seatKey] at hlt
    simp only at hlt
    omega

/-- Witness for C4: the hall constructed as `Hall(2, 2)` is reachable and
satisfies both invariants. -/
theorem claim_C4_invariant_witness :
    Reachable ⟨mkSeats 2 2⟩ ∧
    (CinemaHall.mk (mkSeats 2 2)).seats.Pairwise seatLt ∧
    (CinemaHall.mk (mkSeats 2 2)).seats.Pairwise
      (fun a b => ¬ (a.number = b.number ∧ a.row = b.row)) := by
  have hr : Reachable ⟨mkSeats 2 2⟩ := Reachable.init 2 2 ⟨mkSeats 2 2⟩ rfl
  exact ⟨hr, (claim_C4_invariant ⟨mkSeats 2 2⟩ hr).1, (claim_C4_invariant ⟨mkSeats 2 2⟩ hr).2⟩

/-- The display line the spec describes for one seat: seat number, row, status
("Reserved"/"Available"), and the displayed price — the stored price for a
reserved seat, the (Wednesday-adjusted, ×0.8) base price for an unreserved
one. -/
def specShowLine (seat : Seat) (day_of_week : Int) (base_price : ℚ) : String :=
  let status := if seat.reserved then "Reserved" else "Available"
  let shown := if seat.reserved then seat.price
    else if day_of_week = 2 then base_price * (0.8 : ℚ) else base_price
  s!"Seat {seat.number}, row {seat.row}: {status}, Price: {priceRepr shown}€"

/-- Claim C8: `show_seats` renders one line per seat, in sequence order, with
the seat's number, row, status and displayed price — the stored price for a
reserved seat, and the base price (×0.8 on Wednesday, unchanged otherwise) for
an unreserved one — and an empty hall produces empty output. -/
theorem claim_C8_show_seats (hall : CinemaHall) (day : Int) (b : ℚ) :
    (hall.show_seats day b).1 =
      String.intercalate "\n" (hall.seats.map fun s => specShowLine s day b) ∧
    (hallEmpty.show_seats day b).1 = "" := by
  constructor
  · simp only [CinemaHall.show_seats]
    refine congrArg _ (List.map_congr_left fun s _ => ?_)
    unfold specShowLine
    cases hres : s.reserved <;> simp [hres]
  · rfl

/-- Claim C10: `show_seats` is read-only — the hall after the call, hence
every seat's number, row, reserved flag and price, is exactly the hall before
the call. -/
theorem claim_C10_show_seats_readonly (hall : CinemaHall) (day : Int) (b : ℚ) :
    (hall.show_seats day b).2 = hall ∧
    (hall.show_seats day b).2.seats = hall.seats :=
  ⟨rfl, rfl⟩

/-- Claim C9 (refuting evaluation): the source resolves `reserve_seat`'s
default `day_of_week` from the clock once, at module definition time, so the
same call on the same hall yields different states depending on the weekday
the program started: with the default taken on a Wednesday (weekday 2) the
stored price is `10 * 0.8`, on a Thursday (weekday 3) it is `10`. -/
theorem claim_C9_default_day_clock_dependence :
    (CinemaHall.reserve_seat_defaulted 2 hallOneFree 1 1 30).2 ≠
      (CinemaHall.reserve_seat_defaulted 3 hallOneFree 1 1 30).2 := by
  intro h
  have h1 : (CinemaHall.reserve_seat_defaulted 2 hallOneFree 1 1 30).2 =
      ⟨[⟨1, 1, true, 10 * (0.8 : ℚ)⟩]⟩ := rfl
  have h2 : (CinemaHall.reserve_seat_defaulted 3 hallOneFree 1 1 30).2 =
      ⟨[⟨1, 1, true, (10 : ℚ)⟩]⟩ := rfl
  rw [h1, h2] at h
  simp only [CinemaHall.mk.injEq, List.cons.injEq, Seat.mk.injEq] at h
  have hprice : (10 : ℚ) * (0.8 : ℚ) = 10 := h.1.2.2.2
  norm_num at hprice
